import Mathlib

/-!
Verification of the PTO request lifecycle of `pto-buddy`.

The development shallowly embeds the two persistence/lifecycle snapshots of
the repository:

* the `lib/` snapshot (`lib/date.js`, `lib/nlp.js`, `lib/sheets.js`,
  `lib/handlers.js`), where requests are keyed by a generated `requestId`;
* the `api/index.js` snapshot, where requests are keyed by
  `(user, start, end)` and approval explicitly mutates the balance sheet.

Spreadsheets are modelled as Lean lists of records, JavaScript `Date`
arithmetic as integer epoch-day arithmetic (UTC only), and thrown
exceptions as `Option`/sum results.
-/

namespace PTO

/-! Section: Date model (`lib/date.js` and JavaScript `Date` semantics)

A calendar date is represented by its signed count of days since
1970-01-01 (UTC).  `daysFromCivil` is the proleptic-Gregorian conversion
used by JavaScript engines; `jsUtcEpochDays` reproduces `Date.UTC(y, m-1, d)`
including its two quirks: years 0–99 are offset by 1900, and out-of-range
month/day fields roll over arithmetically. -/

/-- Days since 1970-01-01 of the proleptic Gregorian date `y-m-d`
(for `1 ≤ m ≤ 12`; arbitrary `d` offsets from day 1 of the month). -/
def daysFromCivil (y m d : Int) : Int :=
  let y' := if m ≤ 2 then y - 1 else y
  let era := y'.fdiv 400
  let yoe := y' - era * 400
  let mp := (m + 9).emod 12
  let doy := (153 * mp + 2).fdiv 5 + (d - 1)
  let doe := yoe * 365 + yoe.fdiv 4 - yoe.fdiv 100 + doy
  era * 146097 + doe - 719468

/-- The value `Date.UTC(y, m - 1, d) / 86400000`: the epoch day of the (possibly
rolled-over) date, with the legacy two-digit-year offset. -/
def jsUtcEpochDays (y m d : Int) : Int :=
  let y1 := if 0 ≤ y ∧ y ≤ 99 then y + 1900 else y
  let mIdx := m - 1
  let y2 := y1 + mIdx.fdiv 12
  let m2 := mIdx.emod 12 + 1
  daysFromCivil y2 m2 d

/-- The `getUTCDay()` value of an epoch day: 0 = Sunday … 6 = Saturday
(1970-01-01 was a Thursday, day 4). -/
def dowUTC (d : Int) : Int := (d + 4).emod 7

/-- The weekday test of the `calculateBusinessDays` loop:
`dow !== 0 && dow !== 6`. -/
def isWeekday (d : Int) : Bool := dowUTC d != 0 && dowUTC d != 6

/-- The counting loop of `calculateBusinessDays`: number of weekdays among
the `n + 1` consecutive days `s, s+1, …, s+n`. -/
def businessCountFrom (s : Int) : Nat → Nat
  | 0 => if isWeekday s then 1 else 0
  | Nat.succ n => businessCountFrom s n + (if isWeekday (s + ((n : Int) + 1)) then 1 else 0)

/-- Function `calculateBusinessDays` (`lib/date.js`, inclusive mode) on already
parsed epoch days: `none` models the `End date is before start date`
throw, otherwise the inclusive weekday count. -/
def calculateBusinessDays (s e : Int) : Option Nat :=
  if e < s then none else some (businessCountFrom s ((e - s).toNat))

/-! Section: ISO date strings -/

/-- The digit value of a character. -/
def digitVal (c : Char) : Int := (c.toNat : Int) - ('0'.toNat : Int)

/-- Decompose a string matching `^\d{4}-\d{2}-\d{2}$` (the `isISODate`
regex of `lib/date.js`) into its numeric year, month and day; `none` when
the shape does not match. -/
def isoComponents (s : String) : Option (Int × Int × Int) :=
  match s.data with
  | [y1, y2, y3, y4, h1, m1, m2, h2, d1, d2] =>
    if y1.isDigit && y2.isDigit && y3.isDigit && y4.isDigit && h1 == '-' &&
       m1.isDigit && m2.isDigit && h2 == '-' && d1.isDigit && d2.isDigit then
      some (digitVal y1 * 1000 + digitVal y2 * 100 + digitVal y3 * 10 + digitVal y4,
            digitVal m1 * 10 + digitVal m2,
            digitVal d1 * 10 + digitVal d2)
    else none
  | _ => none

/-- Predicate `isISODate` of `lib/date.js`: the shape test `^\d{4}-\d{2}-\d{2}$`. -/
def isISODate (s : String) : Bool := (isoComponents s).isSome

/-- Function `parseISODateUTC` of `lib/date.js` (`Date.UTC` on the split numeric
fields), as an epoch day.  `none` models the `NaN` date produced by a
string that fails the shape. -/
def parseISODateUTC (s : String) : Option Int :=
  (isoComponents s).map fun c => jsUtcEpochDays c.1 c.2.1 c.2.2

/-- Gregorian leap year. -/
def isLeapYear (y : Int) : Bool :=
  (y.emod 4 == 0 && y.emod 100 != 0) || y.emod 400 == 0

/-- Days in a month of the proleptic Gregorian calendar. -/
def daysInMonth (y m : Int) : Int :=
  if m == 2 then (if isLeapYear y then 29 else 28)
  else if m == 4 || m == 6 || m == 9 || m == 11 then 30
  else 31

/-- The strict ISO parse used by `new Date("YYYY-MM-DD…")`: the engine
rejects calendar-invalid fields (month outside 1–12, day outside the
month) instead of rolling them over, and applies no two-digit-year
offset.  `none` models an `Invalid Date` (`NaN`). -/
def strictParseISO (s : String) : Option Int :=
  (isoComponents s).bind fun c =>
    if 1 ≤ c.2.1 ∧ c.2.1 ≤ 12 ∧ 1 ≤ c.2.2 ∧ c.2.2 ≤ daysInMonth c.1 c.2.1 then
      some (daysFromCivil c.1 c.2.1 c.2.2)
    else none

/-- Function `calculateBusinessDays(startISO, endISO)` as called on strings
(`lib/handlers.js` → `lib/date.js`): parse both ends with `Date.UTC`
semantics and count.  When either string fails the shape, the JS loop
compares against `NaN`, never throws and never iterates, returning 0. -/
def calculateBusinessDaysStr (s e : String) : Option Nat :=
  match parseISODateUTC s, parseISODateUTC e with
  | some a, some b => calculateBusinessDays a b
  | _, _ => some 0

/-! Section: Draft stage (`lib/nlp.js` `parsePTORequest` + `lib/handlers.js`)

The extractor's output is modelled as `none` (no/unparseable content, the
`Parser returned empty result` / `Parser returned invalid JSON` throws)
or a record of the two date strings.  The `reason` field only undergoes
default-filling and never affects control flow, so it is omitted. -/

/-- The date fields of a successfully JSON-parsed extractor reply. -/
structure Extracted where
  start : String
  endDate : String
deriving DecidableEq

/-- Constant `MAX_PTO_SPAN_DAYS` (default configuration). -/
def MAX_PTO_SPAN_DAYS : Int := 30

/-- Function `parsePTORequest` (`lib/nlp.js`): shape-check both dates, then guard
the inclusive span computed with the strict `new Date(\x60${s}T00:00:00Z\x60)`
parse; when either strict parse is `Invalid Date` the `NaN` comparison is
false and the guard passes.  `none` models a throw. -/
def parsePTORequest (ex : Option Extracted) : Option Extracted :=
  match ex with
  | none => none
  | some x =>
    if isISODate x.start && isISODate x.endDate then
      match strictParseISO x.start, strictParseISO x.endDate with
      | some a, some b =>
        if b - a + 1 > MAX_PTO_SPAN_DAYS then none else some x
      | _, _ => some x
    else none

/-- Outcome of the draft operation (`handleDirectMessage` up to the
balance check): a `parsePTORequest` throw, a `calculateBusinessDays`
end-before-start throw, or a parsed draft. -/
inductive DraftResult where
  | parseError : DraftResult
  | validationError : DraftResult
  | ok (start endDate : String) (businessDays : Nat) : DraftResult
deriving DecidableEq

/-- The draft pipeline of `handleDirectMessage`: `parsePTORequest`
followed by `calculateBusinessDays` on the returned strings. -/
def draft (ex : Option Extracted) : DraftResult :=
  match parsePTORequest ex with
  | none => DraftResult.parseError
  | some x =>
    match calculateBusinessDaysStr x.start x.endDate with
    | none => DraftResult.validationError
    | some bd => DraftResult.ok x.start x.endDate bd

/-! Section: Request store (`lib/sheets.js`)

The `PTO_Requests` sheet is a list of rows; row order is append order.
The `end` column is named `endDate` (`end` is a Lean keyword). -/

/-- One row of the `PTO_Requests` sheet (`fromRow`/`toRow` record form). -/
structure Row where
  timestamp : String
  userId : String
  userName : String
  start : String
  endDate : String
  businessDays : Int
  reason : String
  status : String
  managerId : String
  managerName : String
  requestId : String
  decisionTs : String
  approverId : String
deriving DecidableEq

/-- Replace the first element satisfying `p` by its image under `f`
(the row addressed by `findIndex` in the source). -/
def updateFirst (p : α → Bool) (f : α → α) : List α → List α
  | [] => []
  | x :: xs => if p x then f x :: xs else x :: updateFirst p f xs

/-- Function `getRequestById` (`lib/sheets.js`): `null` for a falsy id, else the
first row whose `request_id` column matches. -/
def getRequestById (store : List Row) (id : String) : Option Row :=
  if id = "" then none else store.find? (fun r => r.requestId == id)

/-- Function `ensureRequestRow` (`lib/sheets.js`): fetch the existing row, or
append and re-fetch.  Returns the updated store and the returned row. -/
def ensureRequestRow (store : List Row) (rowObj : Row) : List Row × Option Row :=
  match getRequestById store rowObj.requestId with
  | some r => (store, some r)
  | none =>
    let store' := store ++ [rowObj]
    (store', getRequestById store' rowObj.requestId)

/-- Function `updateRequestStatusById` (`lib/sheets.js`): `false` when the row is
absent; otherwise overwrite the status, decision timestamp and approver
cells of the found row.  `decisionTs` (the wall clock) is a parameter. -/
def updateRequestStatusById (store : List Row) (id newStatus approverId decisionTs : String) :
    Bool × List Row :=
  match getRequestById store id with
  | none => (false, store)
  | some _ =>
    (true,
     updateFirst (fun r => r.requestId == id)
       (fun r => { r with status := newStatus, decisionTs := decisionTs, approverId := approverId })
       store)

/-- Observable outcome of an approve/deny handler run
(`lib/handlers.js`): which message path was taken. -/
inductive DecideOutcome where
  | notFound : DecideOutcome
  | unauthorized : DecideOutcome
  | updateFailed : DecideOutcome
  | decided : DecideOutcome
deriving DecidableEq

/-- Handler `handleApprovePTO` (`lib/handlers.js`): `authorizeManager` (row must
exist and its `managerId` must equal the actor), then
`updateRequestStatusById(requestId, "approved", actorId)`. -/
def handleApprovePTO (store : List Row) (actorId requestId decisionTs : String) :
    DecideOutcome × List Row :=
  match getRequestById store requestId with
  | none => (DecideOutcome.notFound, store)
  | some r =>
    if actorId ≠ r.managerId then (DecideOutcome.unauthorized, store)
    else
      let res := updateRequestStatusById store requestId "approved" actorId decisionTs
      if res.1 then (DecideOutcome.decided, res.2) else (DecideOutcome.updateFailed, res.2)

/-- Handler `handleDenyPTO` (`lib/handlers.js`): identical shape with status
`"denied"`. -/
def handleDenyPTO (store : List Row) (actorId requestId decisionTs : String) :
    DecideOutcome × List Row :=
  match getRequestById store requestId with
  | none => (DecideOutcome.notFound, store)
  | some r =>
    if actorId ≠ r.managerId then (DecideOutcome.unauthorized, store)
    else
      let res := updateRequestStatusById store requestId "denied" actorId decisionTs
      if res.1 then (DecideOutcome.decided, res.2) else (DecideOutcome.updateFailed, res.2)

/-! Section: History aggregation (`getUserPTOHistory`, `lib/sheets.js`)

Timestamps in the sheet are `Date.toISOString()` values; the UTC year of
such a value is its leading four digits.  A string without a four-digit
prefix parses to an invalid date, whose `getUTCFullYear()` is `NaN` and
never equals the current year. -/

/-- The UTC year read from the leading four digits of an ISO timestamp. -/
def tsUTCYear (s : String) : Option Int :=
  match s.data with
  | y1 :: y2 :: y3 :: y4 :: _ =>
    if y1.isDigit && y2.isDigit && y3.isDigit && y4.isDigit then
      some (digitVal y1 * 1000 + digitVal y2 * 100 + digitVal y3 * 10 + digitVal y4)
    else none
  | _ => none

/-- The `totalDaysUsed` field of `getUserPTOHistory`: sum of
`businessDays` over the user's approved rows timestamped in `year`
(the current UTC year, a parameter standing for the wall clock). -/
def totalDaysUsed (rows : List Row) (userId : String) (year : Int) : Int :=
  ((rows.filter (fun r => r.userId == userId && r.status == "approved")).filter
      (fun r => tsUTCYear r.timestamp == some year)).foldl
    (fun sum r => sum + r.businessDays) 0

/-- The `daysRemaining` field of `getUserPTOHistory`:
`Math.max(0, allowanceDays - totalDaysUsed)`. -/
def daysRemaining (rows : List Row) (userId : String) (allowanceDays year : Int) : Int :=
  max 0 (allowanceDays - totalDaysUsed rows userId year)

/-! Section: Submission pipeline (`handleDirectMessage` + `handleConfirmPTO`)

`handleDirectMessage` drafts from the extractor output, rejects the
request when `businessDays > history.daysRemaining`, and otherwise posts
a confirm button carrying the draft payload; `handleConfirmPTO` persists
the payload with a fresh `requestId` and status `"pending"`.  Any throw
in the draft stage is caught and nothing is persisted. -/

/-- The end-to-end store effect of a drafted-then-confirmed request:
the store after `handleConfirmPTO`, or the unchanged store when the
draft stage failed or the balance gate rejected. -/
def dmThenConfirm (store : List Row) (ex : Option Extracted) (remaining : Int)
    (requestId ts userId userName reason managerId managerName : String) : List Row :=
  match draft ex with
  | DraftResult.ok s e bd =>
    if (bd : Int) > remaining then store
    else
      (ensureRequestRow store
        { timestamp := ts, userId := userId, userName := userName, start := s, endDate := e,
          businessDays := (bd : Int), reason := reason, status := "pending",
          managerId := managerId, managerName := managerName, requestId := requestId,
          decisionTs := "", approverId := "" }).1
  | _ => store

/-! Section: The `api/index.js` snapshot

Requests live in the `Requests` sheet (columns
timestamp/user/start/end/reason/status/manager) and balances in the
`Balances` sheet (user/allowance/taken, read through `Number`). -/

/-- One row of the `Requests` sheet of `api/index.js`. -/
structure ReqRow where
  timestamp : String
  user : String
  start : String
  endDate : String
  reason : String
  status : String
  manager : String
deriving DecidableEq

/-- One row of the `Balances` sheet, after `Number` conversion. -/
structure BalRow where
  userId : String
  allowance : Int
  taken : Int
deriving DecidableEq

/-- The spreadsheet state seen by `api/index.js`. -/
structure SheetState where
  requests : List ReqRow
  balances : List BalRow
deriving DecidableEq

/-- The balance record returned by `getBalance`. -/
structure Balance where
  allowance : Int
  taken : Int
  remaining : Int
deriving DecidableEq

/-- Function `getBalance` (`api/index.js`): first matching `Balances` row, or the
zero balance when the user has no row. -/
def getBalance (st : SheetState) (userId : String) : Balance :=
  match st.balances.find? (fun r => r.userId == userId) with
  | none => { allowance := 0, taken := 0, remaining := 0 }
  | some r => { allowance := r.allowance, taken := r.taken, remaining := r.allowance - r.taken }

/-- Function `logRequest` (`api/index.js`): append a `"pending"` row to the
`Requests` sheet. -/
def logRequest (st : SheetState) (ts user s e reason manager : String) : SheetState :=
  { st with requests := st.requests ++
      [{ timestamp := ts, user := user, start := s, endDate := e, reason := reason,
         status := "pending", manager := manager }] }

/-- The quantity `Math.ceil((new Date(end) - new Date(start)) / 86400000) + 1` of
`updateBalance`: the inclusive calendar-day span.  Both strings parse as
strict ISO dates at UTC midnight, so the quotient is exact; `none`
models the `NaN` arithmetic of an invalid date, which is outside the
integer model and excluded by the theorems' hypotheses. -/
def jsDaysTaken (s e : String) : Option Int :=
  match strictParseISO s, strictParseISO e with
  | some a, some b => some (b - a + 1)
  | _, _ => none

/-- Function `updateBalance` (`api/index.js`): add the calendar-day span to the
`taken` cell of the user's first `Balances` row.  A missing row throws
`User not found`, which the surrounding `catch` swallows (`return null`),
leaving the state unchanged. -/
def updateBalance (st : SheetState) (userId s e : String) : SheetState :=
  match jsDaysTaken s e with
  | none => st
  | some daysTaken =>
    match st.balances.find? (fun r => r.userId == userId) with
    | none => st
    | some _ =>
      { st with balances :=
          (updateFirst (fun r => r.userId == userId)
            (fun r => { r with taken := r.taken + daysTaken }) st.balances) }

/-- The `findIndex` predicate of `updateRequestStatus`: same user, same
dates, and status still `"pending"`. -/
def pendingMatch (userId s e : String) (r : ReqRow) : Bool :=
  r.user == userId && r.start == s && r.endDate == e && r.status == "pending"

/-- Function `updateRequestStatus` (`api/index.js`): find the first still-pending
row for `(userId, start, end)`; when absent, warn and return with no
write; otherwise overwrite its status column and, iff the new status is
`"approved"`, run `updateBalance`. -/
def updateRequestStatus (st : SheetState) (userId s e status : String) : SheetState :=
  match st.requests.find? (pendingMatch userId s e) with
  | none => st
  | some _ =>
    let st' := { st with requests :=
      (updateFirst (pendingMatch userId s e) (fun r => { r with status := status }) st.requests) }
    if status == "approved" then updateBalance st' userId s e else st'

/-! Section: Spec-side comparison definition and concrete fixtures -/

/-- Spec-side weekday count, written from the specification's words: the
number of calendar days in the inclusive range `[s, e]` whose UTC
day-of-week is Monday (1) through Friday (5).  Compared against
`calculateBusinessDays` in the refinement theorem. -/
def monFriCount (s e : Int) : Nat :=
  (List.range ((e - s).toNat + 1)).countP fun (i : Nat) =>
    decide (1 ≤ dowUTC (s + (i : Int)) ∧ dowUTC (s + (i : Int)) ≤ 5)

/-- A request row already decided `"denied"` by manager `M1`. -/
def exRowDenied : Row :=
  { timestamp := "2024-06-01T09:00:00.000Z", userId := "U1", userName := "Alice",
    start := "2024-06-10", endDate := "2024-06-16", businessDays := 5, reason := "trip",
    status := "denied", managerId := "M1", managerName := "Mgr", requestId := "r1",
    decisionTs := "2024-06-02T09:00:00.000Z", approverId := "M1" }

/-- A pending request row awaiting manager `M1`. -/
def exRowPending : Row :=
  { timestamp := "2024-06-01T09:00:00.000Z", userId := "U1", userName := "Alice",
    start := "2024-06-10", endDate := "2024-06-16", businessDays := 5, reason := "trip",
    status := "pending", managerId := "M1", managerName := "Mgr", requestId := "r1",
    decisionTs := "", approverId := "" }

/-- The row persisted by the confirm flow for a Saturday–Sunday span. -/
def exStoredWeekend : Row :=
  { timestamp := "t0", userId := "U1", userName := "Alice",
    start := "2024-06-15", endDate := "2024-06-16", businessDays := 0, reason := "trip",
    status := "pending", managerId := "M1", managerName := "Mgr", requestId := "r1",
    decisionTs := "", approverId := "" }

/-- An `api/index.js` state with one pending Monday–Sunday request and a
balance row `taken = 10`. -/
def exStPending : SheetState :=
  { requests := [{ timestamp := "t0", user := "U1", start := "2024-06-10",
                   endDate := "2024-06-16", reason := "trip", status := "pending",
                   manager := "M1" }],
    balances := [{ userId := "U1", allowance := 25, taken := 10 }] }

/-- An `api/index.js` state whose only request is already approved. -/
def exStDecided : SheetState :=
  { requests := [{ timestamp := "t0", user := "U1", start := "2024-06-10",
                   endDate := "2024-06-16", reason := "trip", status := "approved",
                   manager := "M1" }],
    balances := [{ userId := "U1", allowance := 25, taken := 17 }] }

/-! Section: Helper lemmas -/

theorem isWeekday_iff (d : Int) : isWeekday d = true ↔ (1 ≤ dowUTC d ∧ dowUTC d ≤ 5) := by
  unfold isWeekday dowUTC
  have h0 : 0 ≤ (d + 4).emod 7 := Int.emod_nonneg _ (by norm_num)
  have h7 : (d + 4).emod 7 < 7 := Int.emod_lt_of_pos _ (by norm_num)
  simp only [Bool.and_eq_true, bne_iff_ne, ne_eq]
  omega

theorem businessCountFrom_eq_countP (s : Int) (n : Nat) :
    businessCountFrom s n =
      (List.range (n + 1)).countP fun (i : Nat) => isWeekday (s + (i : Int)) := by
  induction n with
  | zero =>
    rw [show List.range 1 = [0] from rfl]
    simp [businessCountFrom, List.countP_cons, List.countP_nil]
  | succ n ih =>
    rw [List.range_succ, List.countP_append, ← ih]
    simp only [businessCountFrom, List.countP_cons, List.countP_nil, Nat.zero_add]
    norm_cast

theorem updateFirst_find?_map {α : Type} (p : α → Bool) (f : α → α)
    (hp : ∀ x, p (f x) = p x) (l : List α) :
    (updateFirst p f l).find? p = (l.find? p).map f := by
  induction l with
  | nil => rfl
  | cons x xs ih =>
    by_cases h : p x
    · simp [updateFirst, h, List.find?_cons_of_pos, hp x]
    · simp [updateFirst, h, List.find?_cons_of_neg, ih]

theorem updateFirst_find?_disjoint {α : Type} (p q : α → Bool) (f : α → α)
    (hq : ∀ x, q (f x) = q x) (hd : ∀ x, p x = true → q x = false) (l : List α) :
    (updateFirst p f l).find? q = l.find? q := by
  induction l with
  | nil => rfl
  | cons x xs ih =>
    by_cases h : p x
    · have hqx : q x = false := hd x h
      simp [updateFirst, h, List.find?_cons_of_neg, hq x, hqx]
    · by_cases h2 : q x
      · simp [updateFirst, h, List.find?_cons_of_pos, h2]
      · simp [updateFirst, h, List.find?_cons_of_neg, h2, ih]

theorem countP_updateFirst_flip {α : Type} (p : α → Bool) (f : α → α)
    (hf : ∀ x, p x = true → p (f x) = false) (l : List α) (h : l.countP p = 1) :
    (updateFirst p f l).countP p = 0 := by
  induction l with
  | nil => simp at h
  | cons x xs ih =>
    rw [List.countP_cons] at h
    by_cases hx : p x
    · rw [if_pos hx] at h
      have hxs : xs.countP p = 0 := by omega
      simp [updateFirst, hx, List.countP_cons, hf x hx, hxs]
    · rw [if_neg hx, add_zero] at h
      simp [updateFirst, hx, List.countP_cons, ih h]

theorem foldl_add_init {α : Type} (g : α → Int) (l : List α) (a : Int) :
    l.foldl (fun sum r => sum + g r) a = a + (l.map g).sum := by
  induction l generalizing a with
  | nil => simp
  | cons x xs ih => simp [ih]; ring

theorem parseISODateUTC_of_isISODate {s : String} (h : isISODate s = true) :
    ∃ d, parseISODateUTC s = some d := by
  unfold isISODate at h
  unfold parseISODateUTC
  rcases ho : isoComponents s with _ | c
  · rw [ho] at h; simp at h
  · exact ⟨_, rfl⟩

theorem getRequestById_ne_empty {store : List Row} {id : String} {r : Row}
    (h : getRequestById store id = some r) : id ≠ "" := by
  intro he
  rw [he] at h
  simp [getRequestById] at h

theorem updateRequestStatus_nofind {st : SheetState} {u s e : String} (d : String)
    (hf : st.requests.find? (pendingMatch u s e) = none) :
    updateRequestStatus st u s e d = st := by
  simp only [updateRequestStatus, hf]

theorem updateRequestStatus_approved_found {st : SheetState} {u s e : String} {row : ReqRow}
    (hf : st.requests.find? (pendingMatch u s e) = some row) :
    updateRequestStatus st u s e "approved" =
      updateBalance
        { st with requests := (updateFirst (pendingMatch u s e)
            (fun r => { r with status := "approved" }) st.requests) } u s e := by
  simp only [updateRequestStatus, hf]
  rfl

theorem updateRequestStatus_other_found {st : SheetState} {u s e : String} {row : ReqRow}
    {d : String} (hbeq : (d == "approved") = false)
    (hf : st.requests.find? (pendingMatch u s e) = some row) :
    updateRequestStatus st u s e d =
      { st with requests := (updateFirst (pendingMatch u s e)
          (fun r => { r with status := d }) st.requests) } := by
  simp only [updateRequestStatus, hf, hbeq]
  rfl

theorem updateBalance_found {reqs : List ReqRow} {bals : List BalRow} {u s e : String}
    {dt : Int} {br : BalRow}
    (hdt : jsDaysTaken s e = some dt)
    (hbal : bals.find? (fun r => r.userId == u) = some br) :
    updateBalance { requests := reqs, balances := bals } u s e =
      { requests := reqs,
        balances := (updateFirst (fun r => r.userId == u)
          (fun r => { r with taken := r.taken + dt }) bals) } := by
  simp only [updateBalance, hdt, hbal]

theorem updateBalance_nobal {reqs : List ReqRow} {bals : List BalRow} {u s e : String} {dt : Int}
    (hdt : jsDaysTaken s e = some dt)
    (hbal : bals.find? (fun r => r.userId == u) = none) :
    updateBalance { requests := reqs, balances := bals } u s e =
      { requests := reqs, balances := bals } := by
  simp only [updateBalance, hdt, hbal]

theorem updateBalance_requests (st : SheetState) (u s e : String) :
    (updateBalance st u s e).requests = st.requests := by
  rcases hdt : jsDaysTaken s e with _ | dt
  · simp only [updateBalance, hdt]
  · rcases hbal : st.balances.find? (fun r => r.userId == u) with _ | br
    · simp only [updateBalance, hdt, hbal]
    · simp only [updateBalance, hdt, hbal]

theorem getBalance_eq_of_balances {st1 st2 : SheetState} (h : st1.balances = st2.balances)
    (u : String) : getBalance st1 u = getBalance st2 u := by
  simp only [getBalance, h]

theorem pendingMatch_flip (u s e : String) (x : ReqRow) (hx : pendingMatch u s e x = true) :
    pendingMatch u s e { x with status := "approved" } = false := by
  simp [pendingMatch]

theorem find?_of_countP_one {α : Type} (p : α → Bool) (l : List α) (h : l.countP p = 1) :
    ∃ x, l.find? p = some x := by
  rcases hf : l.find? p with _ | x
  · rw [List.countP_eq_zero.mpr (List.find?_eq_none.mp hf)] at h
    omega
  · exact ⟨x, rfl⟩

theorem approve_taken {st : SheetState} {u s e : String} {dt : Int} {row : ReqRow} {br : BalRow}
    (hdt : jsDaysTaken s e = some dt)
    (hf : st.requests.find? (pendingMatch u s e) = some row)
    (hbal : st.balances.find? (fun r => r.userId == u) = some br) :
    (getBalance (updateRequestStatus st u s e "approved") u).taken = br.taken + dt := by
  rw [updateRequestStatus_approved_found hf, updateBalance_found hdt hbal]
  have hfindbal :
      (updateFirst (fun r => r.userId == u)
        (fun r => { r with taken := r.taken + dt }) st.balances).find?
          (fun r => r.userId == u) = some { br with taken := br.taken + dt } := by
    rw [updateFirst_find?_map (fun r => r.userId == u)
          (fun r => { r with taken := r.taken + dt }) (fun x => rfl) st.balances, hbal]
    rfl
  simp only [getBalance, hfindbal]

theorem approve_second_noop {st : SheetState} {u s e : String}
    (hone : st.requests.countP (pendingMatch u s e) = 1) :
    updateRequestStatus (updateRequestStatus st u s e "approved") u s e "approved" =
      updateRequestStatus st u s e "approved" := by
  obtain ⟨row, hf⟩ := find?_of_countP_one _ _ hone
  have hreq : (updateRequestStatus st u s e "approved").requests =
      updateFirst (pendingMatch u s e) (fun r => { r with status := "approved" }) st.requests := by
    rw [updateRequestStatus_approved_found hf, updateBalance_requests]
  have hc : (updateRequestStatus st u s e "approved").requests.countP (pendingMatch u s e) = 0 := by
    rw [hreq]
    exact countP_updateFirst_flip _ _ (pendingMatch_flip u s e) st.requests hone
  have hfn : (updateRequestStatus st u s e "approved").requests.find? (pendingMatch u s e) = none :=
    List.find?_eq_none.mpr fun x hx hpx => (List.countP_eq_zero.mp hc x hx) hpx
  exact updateRequestStatus_nofind _ hfn

theorem nonapprove_balances (st : SheetState) (u s e d : String) (hd : d ≠ "approved") :
    (updateRequestStatus st u s e d).balances = st.balances := by
  have hbeq : (d == "approved") = false := by
    simp [hd]
  rcases hf : st.requests.find? (pendingMatch u s e) with _ | row
  · rw [updateRequestStatus_nofind d hf]
  · rw [updateRequestStatus_other_found hbeq hf]

/-! Section: Claim theorems -/

/-- Claim C4: for ISO dates whose parsed start is at most the parsed end,
`calculateBusinessDays` returns exactly the number of calendar days in
the inclusive range whose UTC day-of-week is Monday through Friday.  The
computation is a pure function of the UTC epoch days, so it does not
depend on any caller timezone. -/
theorem c4_business_days_spec (s e : String) (ds de : Int)
    (hs : parseISODateUTC s = some ds) (he : parseISODateUTC e = some de) (h : ds ≤ de) :
    calculateBusinessDaysStr s e = some (monFriCount ds de) := by
  simp only [calculateBusinessDaysStr, hs, he, calculateBusinessDays]
  rw [if_neg (not_lt.mpr h)]
  congr 1
  rw [businessCountFrom_eq_countP]
  refine List.countP_congr fun i _ => ?_
  constructor
  · intro hw; exact decide_eq_true ((isWeekday_iff _).mp hw)
  · intro hd; exact (isWeekday_iff _).mpr (of_decide_eq_true hd)

/-- Witness for C4 on the week 2024-06-10 … 2024-06-16 (Mon–Sun). -/
theorem c4_business_days_spec_witness :
    parseISODateUTC "2024-06-10" = some 19884 ∧
    parseISODateUTC "2024-06-16" = some 19890 ∧
    calculateBusinessDaysStr "2024-06-10" "2024-06-16" = some (monFriCount 19884 19890) ∧
    monFriCount 19884 19890 = 5 :=
  ⟨rfl, rfl,
   c4_business_days_spec "2024-06-10" "2024-06-16" 19884 19890 rfl rfl (by norm_num), rfl⟩

/-- Claim C9: `getBalance` returns the zero balance for a user with no row
in the `Balances` sheet, and for a user with a row it returns that row's
allowance and taken with `remaining = allowance - taken`. -/
theorem c9_get_balance (st : SheetState) (u : String) :
    ((∀ r ∈ st.balances, r.userId ≠ u) →
      getBalance st u = { allowance := 0, taken := 0, remaining := 0 }) ∧
    (∀ br, st.balances.find? (fun r => r.userId == u) = some br →
      getBalance st u =
        { allowance := br.allowance, taken := br.taken, remaining := br.allowance - br.taken }) := by
  constructor
  · intro h
    have hn : st.balances.find? (fun r => r.userId == u) = none :=
      List.find?_eq_none.mpr fun x hx => by simpa [beq_iff_eq] using h x hx
    simp only [getBalance, hn]
  · intro br hbr
    simp only [getBalance, hbr]

/-- Witness for C9: an absent user and a present user. -/
theorem c9_get_balance_witness :
    getBalance { requests := [], balances := [{ userId := "U1", allowance := 25, taken := 20 }] }
        "U2" = { allowance := 0, taken := 0, remaining := 0 } ∧
    getBalance { requests := [], balances := [{ userId := "U1", allowance := 25, taken := 20 }] }
        "U1" = { allowance := 25, taken := 20, remaining := 5 } :=
  ⟨(c9_get_balance _ "U2").1 (by decide),
   (c9_get_balance _ "U1").2 { userId := "U1", allowance := 25, taken := 20 } (by decide)⟩

/-- Claim C10: the `daysRemaining` field of `getUserPTOHistory` equals
`max 0 (allowance - Σ businessDays of the user's approved requests
timestamped in the current UTC year)`, and is never negative. -/
theorem c10_days_remaining (rows : List Row) (u : String) (allowance year : Int) :
    daysRemaining rows u allowance year =
      max 0 (allowance -
        ((rows.filter fun r =>
            decide (r.userId = u ∧ r.status = "approved" ∧ tsUTCYear r.timestamp = some year)).map
          Row.businessDays).sum) ∧
    0 ≤ daysRemaining rows u allowance year := by
  constructor
  · unfold daysRemaining totalDaysUsed
    rw [foldl_add_init, zero_add, List.filter_filter]
    have hfil :
        (rows.filter fun r =>
            tsUTCYear r.timestamp == some year && (r.userId == u && r.status == "approved")) =
          rows.filter fun r =>
            decide (r.userId = u ∧ r.status = "approved" ∧ tsUTCYear r.timestamp = some year) := by
      refine List.filter_congr fun r _ => ?_
      rw [Bool.eq_iff_iff]
      simp
      tauto
    rw [hfil]
  · exact le_max_left _ _

/-- Claim C6: `ensureRequestRow` is an idempotent insert-or-fetch: from a
store containing no row with the (nonempty) `requestId`, the first call
appends exactly one row, and the second call with the same row object
changes nothing and returns the existing row. -/
theorem c6_ensure_idempotent (store : List Row) (rowObj : Row)
    (hid : rowObj.requestId ≠ "")
    (habs : ∀ r ∈ store, r.requestId ≠ rowObj.requestId) :
    (ensureRequestRow store rowObj).1 = store ++ [rowObj] ∧
    ensureRequestRow (ensureRequestRow store rowObj).1 rowObj =
      ((ensureRequestRow store rowObj).1, some rowObj) ∧
    ((ensureRequestRow (ensureRequestRow store rowObj).1 rowObj).1).countP
      (fun r => r.requestId == rowObj.requestId) = 1 := by
  have hfnone : store.find? (fun r => r.requestId == rowObj.requestId) = none :=
    List.find?_eq_none.mpr fun x hx => by simpa [beq_iff_eq] using habs x hx
  have hnone : getRequestById store rowObj.requestId = none := by
    simp only [getRequestById, if_neg hid, hfnone]
  have hfound : getRequestById (store ++ [rowObj]) rowObj.requestId = some rowObj := by
    simp only [getRequestById, if_neg hid, List.find?_append, hfnone, Option.none_or]
    simp [List.find?_cons]
  have h1 : ensureRequestRow store rowObj = (store ++ [rowObj], some rowObj) := by
    simp only [ensureRequestRow, hnone, hfound]
  have h2 : ensureRequestRow (store ++ [rowObj]) rowObj = (store ++ [rowObj], some rowObj) := by
    simp only [ensureRequestRow, hfound]
  refine ⟨by rw [h1], by rw [h1, h2], ?_⟩
  rw [h1, h2]
  rw [List.countP_append]
  rw [List.countP_eq_zero.mpr fun x hx => by simpa [beq_iff_eq] using habs x hx]
  simp [List.countP_cons]

/-- Witness for C6 starting from the empty store. -/
theorem c6_ensure_idempotent_witness :
    (ensureRequestRow [] exRowPending).1 = [exRowPending] ∧
    ensureRequestRow (ensureRequestRow [] exRowPending).1 exRowPending =
      ((ensureRequestRow [] exRowPending).1, some exRowPending) :=
  ⟨(c6_ensure_idempotent [] exRowPending (by decide) (by simp)).1,
   (c6_ensure_idempotent [] exRowPending (by decide) (by simp)).2.1⟩

/-- Claim C3: for a stored pending request, a decide call by an actor who
is not the row's manager returns the unauthorized outcome and leaves the
store — hence the stored status, and any balance derived from the store —
completely unchanged. -/
theorem c3_unauthorized_no_change (store : List Row) (actor id ts : String) (r : Row)
    (hfind : getRequestById store id = some r)
    (hpend : r.status = "pending")
    (hne : actor ≠ r.managerId) :
    handleApprovePTO store actor id ts = (DecideOutcome.unauthorized, store) ∧
    handleDenyPTO store actor id ts = (DecideOutcome.unauthorized, store) ∧
    (getRequestById store id).map Row.status = some "pending" := by
  refine ⟨?_, ?_, ?_⟩
  · simp only [handleApprovePTO, hfind]
    rw [if_pos hne]
  · simp only [handleDenyPTO, hfind]
    rw [if_pos hne]
  · rw [hfind]
    simp [hpend]

/-- Witness for C3: actor `EVE` is not manager `M1`. -/
theorem c3_unauthorized_no_change_witness :
    handleApprovePTO [exRowPending] "EVE" "r1" "t1" =
      (DecideOutcome.unauthorized, [exRowPending]) ∧
    handleDenyPTO [exRowPending] "EVE" "r1" "t1" =
      (DecideOutcome.unauthorized, [exRowPending]) :=
  ⟨(c3_unauthorized_no_change [exRowPending] "EVE" "r1" "t1" exRowPending (by decide) (by decide)
      (by decide)).1,
   (c3_unauthorized_no_change [exRowPending] "EVE" "r1" "t1" exRowPending (by decide) (by decide)
      (by decide)).2.1⟩

/-- Claim C1, counterexample: a row already in the terminal state `denied`,
decided again as `approved` by its manager, does not fail with any
conflict outcome: the call reports success and the stored status flips
from `denied` to `approved`. -/
theorem c1_counterexample :
    exRowDenied.status = "denied" ∧
    (handleApprovePTO [exRowDenied] "M1" "r1" "t2").1 = DecideOutcome.decided ∧
    (getRequestById (handleApprovePTO [exRowDenied] "M1" "r1" "t2").2 "r1").map Row.status =
      some "approved" := by
  refine ⟨rfl, rfl, rfl⟩

/-- Claim C1, amended: no conflict check exists.  In the `lib` snapshot an
authorized decide overwrites the stored status unconditionally, whatever
terminal state the row is in; in the `api` snapshot a decided row no
longer matches the pending-only lookup, so the opposite decision is a
silent no-op rather than a `ConflictError`. -/
theorem c1_amended :
    (∀ (store : List Row) (id actor ts : String) (r : Row),
      getRequestById store id = some r → actor = r.managerId →
      (handleApprovePTO store actor id ts).1 = DecideOutcome.decided ∧
      getRequestById (handleApprovePTO store actor id ts).2 id =
        some { r with status := "approved", decisionTs := ts, approverId := actor }) ∧
    (∀ (st : SheetState) (u s e d : String),
      st.requests.countP (pendingMatch u s e) = 0 → updateRequestStatus st u s e d = st) := by
  constructor
  · intro store id actor ts r hfind hauth
    have hne : ¬(actor ≠ r.managerId) := by simp [hauth]
    have hid : id ≠ "" := getRequestById_ne_empty hfind
    have hfind' : store.find? (fun x => x.requestId == id) = some r := by
      have := hfind
      rw [getRequestById, if_neg hid] at this
      exact this
    have happ : handleApprovePTO store actor id ts =
        (DecideOutcome.decided,
         updateFirst (fun x => x.requestId == id)
           (fun x => { x with status := "approved", decisionTs := ts, approverId := actor })
           store) := by
      simp only [handleApprovePTO, hfind, if_neg hne, updateRequestStatusById, hfind]
      exact if_pos trivial
    have happ2 : (handleApprovePTO store actor id ts).2 =
        updateFirst (fun x => x.requestId == id)
          (fun x => { x with status := "approved", decisionTs := ts, approverId := actor })
          store := by
      rw [happ]
    constructor
    · rw [happ]
    · rw [happ2, getRequestById, if_neg hid]
      rw [updateFirst_find?_map (fun x => x.requestId == id)
            (fun x => { x with status := "approved", decisionTs := ts, approverId := actor })
            (fun x => rfl) store]
      rw [hfind']
      rfl
  · intro st u s e d h
    have hn : st.requests.find? (pendingMatch u s e) = none :=
      List.find?_eq_none.mpr fun x hx hpx => by
        have := List.countP_eq_zero.mp h x hx
        exact this hpx
    simp only [updateRequestStatus, hn]

/-- Witness for C1 amended: the denied row is overwritten, and in the
`api` snapshot the already-approved state absorbs a further decision. -/
theorem c1_amended_witness :
    (handleApprovePTO [exRowDenied] "M1" "r1" "t3").1 = DecideOutcome.decided ∧
    updateRequestStatus exStDecided "U1" "2024-06-10" "2024-06-16" "approved" = exStDecided :=
  ⟨(c1_amended.1 [exRowDenied] "r1" "M1" "t3" exRowDenied (by decide) (by decide)).1,
   c1_amended.2 exStDecided "U1" "2024-06-10" "2024-06-16" "approved" (by decide)⟩

/-- Claim C2: with a unique pending row for `(user, start, end)` and an
existing balance row, deciding `approved` twice with identical arguments
increments `taken` exactly once: the first call adds the span and the
second call finds no pending row and is a complete no-op.  Moreover a
non-`approved` decision never touches the balances. -/
theorem c2_single_increment (st : SheetState) (u s e : String) (br : BalRow) (dt : Int)
    (hone : st.requests.countP (pendingMatch u s e) = 1)
    (hbal : st.balances.find? (fun r => r.userId == u) = some br)
    (hdt : jsDaysTaken s e = some dt) :
    (getBalance (updateRequestStatus st u s e "approved") u).taken = br.taken + dt ∧
    updateRequestStatus (updateRequestStatus st u s e "approved") u s e "approved" =
      updateRequestStatus st u s e "approved" ∧
    (∀ d, d ≠ "approved" → (updateRequestStatus st u s e d).balances = st.balances) := by
  obtain ⟨row, hf⟩ := find?_of_countP_one _ _ hone
  exact ⟨approve_taken hdt hf hbal, approve_second_noop hone,
    fun d hd => nonapprove_balances st u s e d hd⟩

/-- Witness for C2: one pending Monday–Sunday request, `taken = 10`,
span 7; the double call ends at `taken = 17`, not 24. -/
theorem c2_single_increment_witness :
    (getBalance (updateRequestStatus exStPending "U1" "2024-06-10" "2024-06-16" "approved")
        "U1").taken = 10 + 7 ∧
    updateRequestStatus (updateRequestStatus exStPending "U1" "2024-06-10" "2024-06-16" "approved")
        "U1" "2024-06-10" "2024-06-16" "approved" =
      updateRequestStatus exStPending "U1" "2024-06-10" "2024-06-16" "approved" :=
  ⟨(c2_single_increment exStPending "U1" "2024-06-10" "2024-06-16"
      { userId := "U1", allowance := 25, taken := 10 } 7 (by decide) (by decide) (by decide)).1,
   (c2_single_increment exStPending "U1" "2024-06-10" "2024-06-16"
      { userId := "U1", allowance := 25, taken := 10 } 7 (by decide) (by decide) (by decide)).2.1⟩

/-- Claim C5, counterexample: approving the pending Monday–Sunday request
adds 7 (the inclusive calendar-day span) to `taken`, while the request's
business-day count is 5: the balance mutation is not `businessDays`. -/
theorem c5_counterexample :
    calculateBusinessDaysStr "2024-06-10" "2024-06-16" = some 5 ∧
    (getBalance exStPending "U1").taken = 10 ∧
    (getBalance (updateRequestStatus exStPending "U1" "2024-06-10" "2024-06-16" "approved")
        "U1").taken = 17 :=
  ⟨rfl, rfl, rfl⟩

/-- Claim C5, amended: `taken` is mutated only by the approval transition
and only by addition — `logRequest` and non-`approved` decisions leave
balances unchanged — but a successful approval adds the inclusive
calendar-day span `end - start + 1`, not the request's `businessDays`;
since the span is at least 1 whenever `start ≤ end`, `taken` never
decreases under these operations. -/
theorem c5_amended :
    (∀ (st : SheetState) (ts user s e reason manager : String),
      (logRequest st ts user s e reason manager).balances = st.balances) ∧
    (∀ (st : SheetState) (u s e d : String), d ≠ "approved" →
      (updateRequestStatus st u s e d).balances = st.balances) ∧
    (∀ (st : SheetState) (u s e : String) (a b : Int),
      strictParseISO s = some a → strictParseISO e = some b → a ≤ b →
      ∀ u', (getBalance st u').taken ≤
        (getBalance (updateRequestStatus st u s e "approved") u').taken) ∧
    (∀ (st : SheetState) (u s e : String) (a b : Int) (row : ReqRow) (br : BalRow),
      strictParseISO s = some a → strictParseISO e = some b →
      st.requests.find? (pendingMatch u s e) = some row →
      st.balances.find? (fun r => r.userId == u) = some br →
      (getBalance (updateRequestStatus st u s e "approved") u).taken =
        br.taken + (b - a + 1)) := by
  refine ⟨fun st ts user s e reason manager => rfl,
          fun st u s e d hd => nonapprove_balances st u s e d hd, ?_, ?_⟩
  · intro st u s e a b ha hb hab u'
    have hdt : jsDaysTaken s e = some (b - a + 1) := by simp only [jsDaysTaken, ha, hb]
    rcases hf : st.requests.find? (pendingMatch u s e) with _ | row
    · rw [updateRequestStatus_nofind _ hf]
    · rw [updateRequestStatus_approved_found hf]
      rcases hb2 : st.balances.find? (fun r => r.userId == u) with _ | br
      · rw [updateBalance_nobal hdt hb2]
        have heq : getBalance
            ({ requests := (updateFirst (pendingMatch u s e)
                (fun r => { r with status := "approved" }) st.requests),
               balances := st.balances } : SheetState) u' = getBalance st u' :=
          getBalance_eq_of_balances rfl u'
        rw [heq]
      · rw [updateBalance_found hdt hb2]
        by_cases hu : u' = u
        · subst hu
          have hfindbal :
              (updateFirst (fun r => r.userId == u')
                (fun r => { r with taken := r.taken + (b - a + 1) }) st.balances).find?
                  (fun r => r.userId == u') = some { br with taken := br.taken + (b - a + 1) } := by
            rw [updateFirst_find?_map (fun r => r.userId == u')
                  (fun r => { r with taken := r.taken + (b - a + 1) }) (fun x => rfl) st.balances,
                hb2]
            rfl
          simp only [getBalance, hb2, hfindbal]
          omega
        · have hfindbal :
              (updateFirst (fun r => r.userId == u)
                (fun r => { r with taken := r.taken + (b - a + 1) }) st.balances).find?
                  (fun r => r.userId == u') = st.balances.find? (fun r => r.userId == u') := by
            refine updateFirst_find?_disjoint (fun r => r.userId == u) (fun r => r.userId == u')
              (fun r => { r with taken := r.taken + (b - a + 1) }) (fun x => rfl) ?_ st.balances
            intro x hx
            have hxu : x.userId = u := by simpa [beq_iff_eq] using hx
            simp only [hxu, beq_iff_eq]
            exact decide_eq_false fun h => hu h.symm
          simp only [getBalance, hfindbal]
          exact le_rfl
  · intro st u s e a b row br ha hb hf hbal
    have hdt : jsDaysTaken s e = some (b - a + 1) := by simp only [jsDaysTaken, ha, hb]
    exact approve_taken hdt hf hbal

/-- Witness for C5 amended: the deny path leaves balances unchanged and
the approve path adds the 7-day calendar span to `taken = 10`. -/
theorem c5_amended_witness :
    (updateRequestStatus exStPending "U1" "2024-06-10" "2024-06-16" "denied").balances =
      exStPending.balances ∧
    (getBalance (updateRequestStatus exStPending "U1" "2024-06-10" "2024-06-16" "approved")
        "U1").taken = 10 + (19890 - 19884 + 1) :=
  ⟨c5_amended.2.1 exStPending "U1" "2024-06-10" "2024-06-16" "denied" (by decide),
   c5_amended.2.2.2 exStPending "U1" "2024-06-10" "2024-06-16" 19884 19890
     { timestamp := "t0", user := "U1", start := "2024-06-10", endDate := "2024-06-16",
       reason := "trip", status := "pending", manager := "M1" }
     { userId := "U1", allowance := 25, taken := 10 } rfl rfl (by decide) (by decide)⟩

theorem calculateBusinessDays_some (ds de : Int) (bd : Nat)
    (h : calculateBusinessDays ds de = some bd) :
    ds ≤ de ∧ bd = businessCountFrom ds ((de - ds).toNat) := by
  unfold calculateBusinessDays at h
  by_cases hlt : de < ds
  · rw [if_pos hlt] at h; cases h
  · rw [if_neg hlt] at h
    exact ⟨not_lt.mp hlt, (Option.some.inj h).symm⟩

theorem parsePTORequest_some_inv (y x : Extracted) (h : parsePTORequest (some y) = some x) :
    x = y ∧ isISODate y.start = true ∧ isISODate y.endDate = true ∧
    (∀ a b, strictParseISO y.start = some a → strictParseISO y.endDate = some b →
      b - a + 1 ≤ MAX_PTO_SPAN_DAYS) := by
  simp only [parsePTORequest] at h
  by_cases hiso : (isISODate y.start && isISODate y.endDate) = true
  · rw [if_pos hiso] at h
    obtain ⟨h1, h2⟩ : isISODate y.start = true ∧ isISODate y.endDate = true := by
      simpa using hiso
    rcases ha : strictParseISO y.start with _ | a <;>
      rcases hb : strictParseISO y.endDate with _ | b <;> rw [ha, hb] at h
    · exact ⟨(Option.some.inj h).symm, h1, h2, fun a' b' ha' hb' => by simp [ha] at ha'⟩
    · exact ⟨(Option.some.inj h).symm, h1, h2, fun a' b' ha' hb' => by simp [ha] at ha'⟩
    · exact ⟨(Option.some.inj h).symm, h1, h2, fun a' b' ha' hb' => by simp [hb] at hb'⟩
    · dsimp only at h
      by_cases hspan : b - a + 1 > MAX_PTO_SPAN_DAYS
      · rw [if_pos hspan] at h; cases h
      · rw [if_neg hspan] at h
        refine ⟨(Option.some.inj h).symm, h1, h2, ?_⟩
        intro a' b' ha' hb'
        have haa := Option.some.inj ha'
        have hbb := Option.some.inj hb'
        omega
  · rw [if_neg hiso] at h; cases h

theorem draft_ok_inv (ex : Option Extracted) (s e : String) (bd : Nat)
    (h : draft ex = DraftResult.ok s e bd) :
    ∃ x ds de, ex = some x ∧ x.start = s ∧ x.endDate = e ∧
      parseISODateUTC s = some ds ∧ parseISODateUTC e = some de ∧ ds ≤ de ∧
      bd = businessCountFrom ds ((de - ds).toNat) := by
  rcases ex with _ | y
  · simp [draft, parsePTORequest] at h
  · rcases hex : parsePTORequest (some y) with _ | x
    · simp [draft, hex] at h
    · obtain ⟨hxy, h1, h2, _⟩ := parsePTORequest_some_inv y x hex
      subst hxy
      obtain ⟨ds, hds⟩ := parseISODateUTC_of_isISODate h1
      obtain ⟨de, hde⟩ := parseISODateUTC_of_isISODate h2
      simp only [draft, hex, calculateBusinessDaysStr, hds, hde] at h
      rcases hcb : calculateBusinessDays ds de with _ | bd'
      · rw [hcb] at h
        have h' : DraftResult.validationError = DraftResult.ok s e bd := h
        cases h'
      · rw [hcb] at h
        have h' : DraftResult.ok x.start x.endDate bd' = DraftResult.ok s e bd := h
        injection h' with hs he hbd
        obtain ⟨hle, hval⟩ := calculateBusinessDays_some ds de bd' hcb
        subst hs; subst he; subst hbd
        exact ⟨x, ds, de, rfl, rfl, rfl, hds, hde, hle, hval⟩

/-- Claim C7, counterexample: a Saturday–Sunday request (zero weekdays)
passes the balance gate (`0 > remaining` is false) and is persisted as a
`pending` row with `businessDays = 0`, violating `businessDays > 0`. -/
theorem c7_counterexample :
    dmThenConfirm [] (some ⟨"2024-06-15", "2024-06-16"⟩) 5 "r1" "t0" "U1" "Alice" "trip"
        "M1" "Mgr" = [exStoredWeekend] ∧
    exStoredWeekend.status = "pending" ∧
    exStoredWeekend.businessDays = 0 ∧
    parseISODateUTC "2024-06-15" = some 19889 ∧
    parseISODateUTC "2024-06-16" = some 19890 ∧
    monFriCount 19889 19890 = 0 :=
  ⟨rfl, rfl, rfl, rfl, rfl, rfl⟩

/-- Claim C7, amended: every row persisted by the draft-and-confirm flow
satisfies `end ≥ start` (as parsed UTC days) and `businessDays ≥ 0` with
`businessDays` within the remaining balance — but not `businessDays > 0`:
a span containing no weekday is stored with `businessDays = 0`. -/
theorem c7_amended :
    (∀ (ex : Option Extracted) (s e : String) (bd : Nat),
      draft ex = DraftResult.ok s e bd →
      ∃ ds de, parseISODateUTC s = some ds ∧ parseISODateUTC e = some de ∧ ds ≤ de) ∧
    (∀ (store : List Row) (ex : Option Extracted) (remaining : Int)
        (rid ts uid uname reason mid mname : String) (r : Row),
      r ∈ dmThenConfirm store ex remaining rid ts uid uname reason mid mname →
      r ∈ store ∨
        (r.status = "pending" ∧ 0 ≤ r.businessDays ∧ r.businessDays ≤ remaining ∧
         ∃ ds de, parseISODateUTC r.start = some ds ∧ parseISODateUTC r.endDate = some de ∧
           ds ≤ de)) := by
  constructor
  · intro ex s e bd h
    obtain ⟨x, ds, de, _, _, _, hds, hde, hle, _⟩ := draft_ok_inv ex s e bd h
    exact ⟨ds, de, hds, hde, hle⟩
  · intro store ex remaining rid ts uid uname reason mid mname r hr
    unfold dmThenConfirm at hr
    cases hd : draft ex with
    | parseError =>
      rw [hd] at hr
      exact Or.inl hr
    | validationError =>
      rw [hd] at hr
      exact Or.inl hr
    | ok s e bd =>
      rw [hd] at hr
      have hr2 : r ∈ (if (bd : Int) > remaining then store
          else (ensureRequestRow store
            { timestamp := ts, userId := uid, userName := uname, start := s, endDate := e,
              businessDays := (bd : Int), reason := reason, status := "pending",
              managerId := mid, managerName := mname, requestId := rid,
              decisionTs := "", approverId := "" }).1) := hr
      by_cases hgate : (bd : Int) > remaining
      · rw [if_pos hgate] at hr2
        exact Or.inl hr2
      · rw [if_neg hgate] at hr2
        rcases hg : getRequestById store rid with _ | old
        · unfold ensureRequestRow at hr2
          rw [hg] at hr2
          have hr3 : r ∈ store ++
              [{ timestamp := ts, userId := uid, userName := uname, start := s, endDate := e,
                 businessDays := (bd : Int), reason := reason, status := "pending",
                 managerId := mid, managerName := mname, requestId := rid,
                 decisionTs := "", approverId := "" }] := hr2
          rcases List.mem_append.mp hr3 with hmem | hmem
          · exact Or.inl hmem
          · have hrnew := List.mem_singleton.mp hmem
            subst hrnew
            obtain ⟨x, ds, de, _, _, _, hds, hde, hle, _⟩ := draft_ok_inv ex s e bd hd
            exact Or.inr ⟨rfl, Int.natCast_nonneg bd, not_lt.mp hgate,
              ⟨ds, de, hds, hde, hle⟩⟩
        · unfold ensureRequestRow at hr2
          rw [hg] at hr2
          exact Or.inl hr2

/-- Witness for C7 amended at the persisted weekend row. -/
theorem c7_amended_witness :
    exStoredWeekend ∈ ([] : List Row) ∨
      (exStoredWeekend.status = "pending" ∧ 0 ≤ exStoredWeekend.businessDays ∧
       exStoredWeekend.businessDays ≤ 5 ∧
       ∃ ds de, parseISODateUTC exStoredWeekend.start = some ds ∧
         parseISODateUTC exStoredWeekend.endDate = some de ∧ ds ≤ de) :=
  c7_amended.2 [] (some ⟨"2024-06-15", "2024-06-16"⟩) 5 "r1" "t0" "U1" "Alice" "trip"
    "M1" "Mgr" exStoredWeekend (by decide)

theorem parsePTORequest_some_of (y : Extracted)
    (h1 : isISODate y.start = true) (h2 : isISODate y.endDate = true)
    (hsp : ∀ a b, strictParseISO y.start = some a → strictParseISO y.endDate = some b →
      b - a + 1 ≤ MAX_PTO_SPAN_DAYS) :
    parsePTORequest (some y) = some y := by
  simp only [parsePTORequest]
  rw [if_pos (by simp [h1, h2])]
  rcases ha : strictParseISO y.start with _ | a <;>
    rcases hb : strictParseISO y.endDate with _ | b
  · rfl
  · rfl
  · rfl
  · dsimp only
    rw [if_neg (not_lt.mpr (hsp a b ha hb))]

theorem parsePTORequest_none_iff (y : Extracted) :
    parsePTORequest (some y) = none ↔
      (isISODate y.start = false ∨ isISODate y.endDate = false ∨
       ∃ a b, strictParseISO y.start = some a ∧ strictParseISO y.endDate = some b ∧
         MAX_PTO_SPAN_DAYS < b - a + 1) := by
  constructor
  · intro h
    by_cases h1 : isISODate y.start = true
    case neg => exact Or.inl (by simpa using h1)
    by_cases h2 : isISODate y.endDate = true
    case neg => exact Or.inr (Or.inl (by simpa using h2))
    simp only [parsePTORequest] at h
    rw [if_pos (by simp [h1, h2])] at h
    rcases ha : strictParseISO y.start with _ | a <;>
      rcases hb : strictParseISO y.endDate with _ | b <;> rw [ha, hb] at h
    · exact Option.noConfusion h
    · exact Option.noConfusion h
    · exact Option.noConfusion h
    · dsimp only at h
      by_cases hspan : b - a + 1 > MAX_PTO_SPAN_DAYS
      · exact Or.inr (Or.inr ⟨a, b, rfl, rfl, hspan⟩)
      · rw [if_neg hspan] at h
        exact Option.noConfusion h

  · intro hr
    rcases hr with h1 | h2 | ⟨a, b, ha, hb, hspan⟩
    · simp only [parsePTORequest]
      rw [if_neg (by simp [h1])]
    · simp only [parsePTORequest]
      rw [if_neg (by simp [h2])]
    · by_cases h1 : isISODate y.start = true
      · by_cases h2 : isISODate y.endDate = true
        · simp only [parsePTORequest]
          rw [if_pos (by simp [h1, h2]), ha, hb]
          dsimp only
          rw [if_pos hspan]
        · simp only [parsePTORequest]
          rw [if_neg (by simp [h2])]
      · simp only [parsePTORequest]
        rw [if_neg (by simp [h1])]

theorem draft_parseError_iff (ex : Option Extracted) :
    draft ex = DraftResult.parseError ↔ parsePTORequest ex = none := by
  rcases hp : parsePTORequest ex with _ | x
  · simp [draft, hp]
  · simp only [draft, hp]
    rcases hc : calculateBusinessDaysStr x.start x.endDate with _ | bd
    · simp [hc]
    · simp [hc]

theorem calculateBusinessDaysStr_none_iff (s e : String)
    (hs : isISODate s = true) (he : isISODate e = true) :
    calculateBusinessDaysStr s e = none ↔
      ∃ ds de, parseISODateUTC s = some ds ∧ parseISODateUTC e = some de ∧ de < ds := by
  obtain ⟨ds, hds⟩ := parseISODateUTC_of_isISODate hs
  obtain ⟨de, hde⟩ := parseISODateUTC_of_isISODate he
  simp only [calculateBusinessDaysStr, hds, hde, calculateBusinessDays]
  constructor
  · intro h
    by_cases hlt : de < ds
    · exact ⟨ds, de, rfl, rfl, hlt⟩
    · rw [if_neg hlt] at h
      exact Option.noConfusion h
  · rintro ⟨ds', de', hds', hde', hlt⟩
    obtain rfl := Option.some.inj hds'
    obtain rfl := Option.some.inj hde'
    rw [if_pos hlt]

/-- Claim C8, counterexample: `"2024-13-01"` is not a valid ISO date (the
strict engine parse rejects month 13), yet it passes the shape regex,
the span guard is vacuous on its `NaN` strict parse, and `Date.UTC`
rolls it over to 2025-01-01 — so `draft` returns a `DraftRequest`
(with 3 business days) instead of failing with `ParseError`. -/
theorem c8_counterexample :
    strictParseISO "2024-13-01" = none ∧
    isISODate "2024-13-01" = true ∧
    draft (some { start := "2024-13-01", endDate := "2024-13-05" }) =
      DraftResult.ok "2024-13-01" "2024-13-05" 3 :=
  ⟨rfl, rfl, rfl⟩

/-- Claim C8, amended: `draft` fails with `ParseError` exactly when the
extractor output is missing/unparseable, a date fails the
shape test `\d{4}-\d{2}-\d{2}`, or both dates are calendar-valid and
their inclusive span exceeds 30 days (shape-valid but calendar-invalid
dates are not rejected: their `NaN` strict parse lets the span guard
pass and `Date.UTC` rolls the fields over); it fails with
`ValidationError` exactly when those guards pass and the rolled-over end
precedes the rolled-over start; otherwise it returns a draft whose
`businessDays` is the weekday count of the rolled-over range. -/
theorem c8_amended (ex : Option Extracted) :
    (draft ex = DraftResult.parseError ↔
      (ex = none ∨ ∃ x, ex = some x ∧
        (isISODate x.start = false ∨ isISODate x.endDate = false ∨
         ∃ a b, strictParseISO x.start = some a ∧ strictParseISO x.endDate = some b ∧
           MAX_PTO_SPAN_DAYS < b - a + 1))) ∧
    (draft ex = DraftResult.validationError ↔
      (∃ x ds de, ex = some x ∧ isISODate x.start = true ∧ isISODate x.endDate = true ∧
        (∀ a b, strictParseISO x.start = some a → strictParseISO x.endDate = some b →
          b - a + 1 ≤ MAX_PTO_SPAN_DAYS) ∧
        parseISODateUTC x.start = some ds ∧ parseISODateUTC x.endDate = some de ∧ de < ds)) ∧
    (∀ x ds de, ex = some x →
      isISODate x.start = true → isISODate x.endDate = true →
      (∀ a b, strictParseISO x.start = some a → strictParseISO x.endDate = some b →
        b - a + 1 ≤ MAX_PTO_SPAN_DAYS) →
      parseISODateUTC x.start = some ds → parseISODateUTC x.endDate = some de → ds ≤ de →
      draft ex = DraftResult.ok x.start x.endDate (businessCountFrom ds ((de - ds).toNat))) := by
  rcases ex with _ | y
  · refine ⟨?_, ?_, ?_⟩
    · simp [draft, parsePTORequest]
    · simp [draft, parsePTORequest]
    · intro x ds de hx
      cases hx
  · refine ⟨?_, ?_, ?_⟩
    · rw [draft_parseError_iff, parsePTORequest_none_iff]
      constructor
      · intro h
        exact Or.inr ⟨y, rfl, h⟩
      · rintro (h | ⟨x, hx, h⟩)
        · cases h
        · obtain rfl := Option.some.inj hx
          exact h
    · constructor
      · intro h
        rcases hp : parsePTORequest (some y) with _ | x
        · simp only [draft, hp] at h
          cases h
        · obtain ⟨rfl, h1, h2, hsp⟩ := parsePTORequest_some_inv y x hp
          simp only [draft, hp] at h
          rcases hc : calculateBusinessDaysStr x.start x.endDate with _ | bd
          · obtain ⟨ds, de, hds, hde, hlt⟩ :=
              (calculateBusinessDaysStr_none_iff _ _ h1 h2).mp hc
            exact ⟨x, ds, de, rfl, h1, h2, hsp, hds, hde, hlt⟩
          · rw [hc] at h
            have h' : DraftResult.ok x.start x.endDate bd = DraftResult.validationError := h
            cases h'
      · rintro ⟨x, ds, de, hx, h1, h2, hsp, hds, hde, hlt⟩
        obtain rfl := Option.some.inj hx
        have hp := parsePTORequest_some_of y h1 h2 hsp
        have hc : calculateBusinessDaysStr y.start y.endDate = none := by
          simp only [calculateBusinessDaysStr, hds, hde, calculateBusinessDays]
          rw [if_pos hlt]
        simp only [draft, hp, hc]
    · intro x ds de hx h1 h2 hsp hds hde hle
      obtain rfl := Option.some.inj hx
      have hp := parsePTORequest_some_of y h1 h2 hsp
      have hc : calculateBusinessDaysStr y.start y.endDate =
          some (businessCountFrom ds ((de - ds).toNat)) := by
        simp only [calculateBusinessDaysStr, hds, hde, calculateBusinessDays]
        rw [if_neg (not_lt.mpr hle)]
      simp only [draft, hp, hc]

/-- Witness for C8 amended: a clean three-weekday request drafts
successfully. -/
theorem c8_amended_witness :
    draft (some { start := "2024-06-10", endDate := "2024-06-12" }) =
      DraftResult.ok "2024-06-10" "2024-06-12"
        (businessCountFrom 19884 (((19886 : Int) - 19884).toNat)) :=
  (c8_amended (some { start := "2024-06-10", endDate := "2024-06-12" })).2.2
    { start := "2024-06-10", endDate := "2024-06-12" } 19884 19886 rfl rfl rfl
    (fun a b ha hb => by
      have ha2 := (show strictParseISO "2024-06-10" = some 19884 from rfl).symm.trans ha
      have hb2 := (show strictParseISO "2024-06-12" = some 19886 from rfl).symm.trans hb
      have haa := Option.some.inj ha2
      have hbb := Option.some.inj hb2
      simp only [MAX_PTO_SPAN_DAYS]
      omega)
    rfl rfl (by norm_num)

end PTO
